import Mathlib

/-
  Verification of the speaker-classification core of this repository
  (montreal_forced_aligner/speaker_classifier.py) against its design
  specification.

  The Python source is shallowly embedded: the classifier object becomes an
  explicit state record, filesystem effects become an explicit filesystem
  value, raised exceptions become Except / Option error results, and log
  calls become explicit action traces.  Collaborators that live outside the
  single source file of the repository (generic helpers, the praatio
  annotation library, database records) are modelled from the specification;
  each such definition is marked in its doc comment.
-/

set_option autoImplicit false

namespace MFA

/-- Transcript-format tag of a file record.
Modelled from the spec: `TextFileType` (data module, not under src/) tags a
recording as single-label (`lab`) or structured multi-tier (`textgrid`,
`json`), selecting the export serialization (§4.4, §6). -/
inductive TextFileType where
  | lab
  | textgrid
  | json
deriving DecidableEq, Repr

/-- A time-stamped labelled interval: the (start, end, label) triple of §3.
The source field `end` is a Lean keyword and is embedded as `stop`. -/
structure Interval where
  start : ℚ
  stop : ℚ
  label : String
deriving DecidableEq, Repr

/-- A named tier: an ordered sequence of intervals belonging to one speaker
(praatio `IntervalTier(name, entries, minT, maxT)` as used at lines 222-224). -/
structure IntervalTier where
  name : String
  entries : List Interval
deriving DecidableEq, Repr

/-- Content of a written output file: plain text for single-label export, or
a saved annotation container (declared time range plus tiers, tagged with the
output format passed to `tg.save`) for multi-tier export. -/
inductive FileContent where
  | text (s : String)
  | textgridFile (fmt : TextFileType) (minTimestamp maxTimestamp : ℚ)
      (tiers : List IntervalTier)
deriving DecidableEq, Repr

/-- Explicit filesystem state: the set of directories created so far and a
map from path to written file content. -/
structure FS where
  dirs : List String
  files : String → Option FileContent

/-- `os.path.exists`: true when the path is a known directory or a file. -/
def FS.existsPath (fs : FS) (p : String) : Bool :=
  fs.dirs.contains p || (fs.files p).isSome

/-- Python exceptions raised (or specified to be raised) by the classifier.
The spec's taxonomy (§7) maps onto the concrete Python types raised by the
code: `notImplementedError` for the unsupported clustering path,
`valueError` for float conversion failures, `keyError` / `indexError` for
lookup failures during export, and `configurationError` for the specified
missing-reference-models failure. -/
inductive MfaError where
  | notImplementedError (msg : String)
  | valueError (msg : String)
  | keyError (key : String)
  | indexError (msg : String)
  | configurationError (msg : String)
deriving DecidableEq, Repr

/-- The state of a `SpeakerClassifier` instance.  Fields set by `__init__`
(lines 49-63) plus the ambient configuration carried by the mixins.
`output_directory` is modelled from the spec: it is the attribute supplied
by the `TopLevelMfaWorker` mixin (not under src/), held here as opaque
configuration state (§9 notes this ambient state explicitly).  The three
`_done` flags model the effects of the external corpus collaborators
(`load_corpus`, `export_model`, `extract_ivectors`, §1 "external
collaborators"). -/
structure SpeakerClassifier where
  ivector_extractor_path : String
  working_directory : String
  output_directory : String
  overwrite : Bool
  classifier : Option Unit
  speaker_labels : List (String × String)
  ivectors : List (String × List String)
  expected_num_speakers : Int
  cluster : Bool
  corpus_loaded : Bool
  model_exported : Bool
  ivectors_extracted : Bool
deriving DecidableEq, Repr

/-- `SpeakerClassifier.__init__` (lines 49-63): records the constructor
arguments and initializes `classifier`, `speaker_labels` and `ivectors` to
empty.  The body performs no validation of the mode against available
reference models and has no failing path; the result is wrapped in `Except`
so that the absence of any raised `ConfigurationError` is expressible. -/
def SpeakerClassifier.init (ivector_extractor_path : String)
    (expected_num_speakers : Int) (cluster : Bool)
    (working_directory output_directory : String) (overwrite : Bool) :
    Except MfaError SpeakerClassifier :=
  Except.ok
    { ivector_extractor_path := ivector_extractor_path
      working_directory := working_directory
      output_directory := output_directory
      overwrite := overwrite
      classifier := none
      speaker_labels := []
      ivectors := []
      expected_num_speakers := expected_num_speakers
      cluster := cluster
      corpus_loaded := false
      model_exported := false
      ivectors_extracted := false }

/-! ### Parsing of input vector files -/

/-- Whitespace tokenizer over a character list, accumulating the current
token in reverse; models Python's `str.split()` with no argument (runs of
whitespace separate tokens, no empty tokens). -/
def splitWhitespaceAux : List Char → List Char → List String
  | acc, [] => if acc.isEmpty then [] else [String.mk acc.reverse]
  | acc, c :: cs =>
    if c.isWhitespace then
      (if acc.isEmpty then [] else [String.mk acc.reverse]) ++ splitWhitespaceAux [] cs
    else
      splitWhitespaceAux (c :: acc) cs

/-- Split a line into whitespace-separated tokens. -/
def splitWhitespace (s : String) : List String :=
  splitWhitespaceAux [] s.data

/-- Strip leading and trailing whitespace from a character list. -/
def trimChars (cs : List Char) : List Char :=
  ((cs.dropWhile Char.isWhitespace).reverse.dropWhile Char.isWhitespace).reverse

/-- Count leading decimal digits, returning the count and the rest. -/
def takeDigits : List Char → Nat × List Char
  | [] => (0, [])
  | c :: cs =>
    if c.isDigit then
      let r := takeDigits cs
      (r.1 + 1, r.2)
    else
      (0, c :: cs)

/-- Exponent suffix of a float literal: empty, or `e`/`E`, an optional sign,
and one or more digits. -/
def expSuffixValid : List Char → Bool
  | [] => true
  | c :: cs =>
    if c = 'e' || c = 'E' then
      let cs := match cs with
        | d :: rest => if d = '+' || d = '-' then rest else d :: rest
        | [] => []
      let r := takeDigits cs
      decide (0 < r.1) && r.2.isEmpty
    else
      false

/-- Decimal mantissa with optional fraction, followed by an optional
exponent: `d+ (. d*)? exp?` or `. d+ exp?`. -/
def mantissaExpValid (cs : List Char) : Bool :=
  let r1 := takeDigits cs
  match r1.2 with
  | '.' :: tail =>
    let r2 := takeDigits tail
    (decide (0 < r1.1) || decide (0 < r2.1)) && expSuffixValid r2.2
  | rest => decide (0 < r1.1) && expSuffixValid rest

/-- Case-insensitive `inf` / `infinity` / `nan`. -/
def isInfNan (cs : List Char) : Bool :=
  let l := cs.map Char.toLower
  l = ['i', 'n', 'f'] || l = ['i', 'n', 'f', 'i', 'n', 'i', 't', 'y'] ||
    l = ['n', 'a', 'n']

/-- Acceptance by CPython's `float()` constructor on a string: surrounding
whitespace, an optional sign, then a decimal literal or inf/nan (underscore
digit separators are not modelled; no claim depends on them).  Only
acceptance matters to the embedding: accepted components are kept as their
literal token, since float arithmetic is never performed by the code under
verification. -/
def pyFloatValid (s : String) : Bool :=
  let cs := trimChars s.data
  let cs := match cs with
    | c :: rest => if c = '+' || c = '-' then rest else c :: rest
    | [] => []
  isInfNan cs || mantissaExpValid cs

/-- Modelled from the spec: `load_scp` (montreal_forced_aligner.helper, not
under src/).  Per §6, each non-empty line of an input vector file holds one
utterance identifier followed by whitespace-separated components; blank
lines are skipped. -/
def load_scp (lines : List String) : List (String × List String) :=
  lines.filterMap fun l =>
    match splitWhitespace l with
    | [] => none
    | k :: vs => some (k, vs)

/-- `[float(x) for x in ivector]` (line 163): validate the components left to
right; the first component not accepted by `float()` raises a `ValueError`
naming that component. -/
def parseVector : List String → Except MfaError (List String)
  | [] => Except.ok []
  | c :: rest =>
    if pyFloatValid c then
      (parseVector rest).map fun v => c :: v
    else
      Except.error (MfaError.valueError ("could not convert string to float: " ++ c))

/-- `self.ivectors[utt] = ivector`: insertion-ordered map update (Python
dict semantics: replace in place when the key exists, append otherwise). -/
def insertIvec : List (String × List String) → String → List String →
    List (String × List String)
  | [], k, v => [(k, v)]
  | e :: rest, k, v => if e.1 = k then (k, v) :: rest else e :: insertIvec rest k v

/-- First-match association lookup (Python dict access; keys are unique by
construction of the updates). -/
def lookupIvec : List (String × List String) → String → Option (List String)
  | [], _ => none
  | e :: rest, k => if e.1 = k then some e.2 else lookupIvec rest k

/-- The entry loop of `load_ivectors` (lines 160-164), with the two nested
loops (over shards, then over the entries of each shard) flattened into the
single concatenated entry list they traverse: parse each vector, aborting at
the first conversion failure, and store it under its utterance identifier. -/
def loadEntries : List (String × List String) → List (String × List String) →
    Except MfaError (List (String × List String))
  | m, [] => Except.ok m
  | m, e :: rest =>
    match parseVector e.2 with
    | Except.error err => Except.error err
    | Except.ok v => loadEntries (insertIvec m e.1 v) rest

/-- All (identifier, components) entries of all shards, in traversal order. -/
def shardEntries (shards : List (List String)) : List (String × List String) :=
  (shards.map load_scp).flatten

/-- `SpeakerClassifier.load_ivectors` (lines 155-164): reset `self.ivectors`
to empty, then merge every shard's parsed entries into it.  `shards` is the
line content of each `ivectors_path` produced by
`extract_ivectors_arguments()` (external corpus collaborator). -/
def load_ivectors (st : SpeakerClassifier) (shards : List (List String)) :
    Except MfaError SpeakerClassifier :=
  (loadEntries [] (shardEntries shards)).map fun m => { st with ivectors := m }

/-! ### Clustering -/

/-- The message logged and raised by `cluster_utterances` (lines 170-175). -/
def diarizationMessage : String :=
  "Speaker diarization functionality is currently under construction and not working in the current version."

/-- `SpeakerClassifier.cluster_utterances` (lines 166-175): logs an error and
raises `NotImplementedError`, unconditionally.  The first component is the
list of messages passed to `log_error`. -/
def cluster_utterances (_st : SpeakerClassifier) :
    List String × Except MfaError SpeakerClassifier :=
  ([diarizationMessage], Except.error (MfaError.notImplementedError diarizationMessage))

/-! ### Export -/

/-- A file record as returned by the session query of `export_files`
(lines 190-196): name, relative path, sound-file duration, text-file type,
the ordered speakers associated with the file, the utterance identifiers,
and the per-speaker transcription tiers.
Modelled from the spec: `File`, `SoundFile`, `TextFile`, `SpeakerOrdering`
and `File.construct_transcription_tiers` live in the database module (not
under src/); per §4.3 and §6 a file record carries its name, duration,
transcript-format tag, ordered speaker list and per-speaker ordered interval
tiers, the latter represented here as stored data on the record. -/
structure FileData where
  name : String
  relative_path : String
  duration : ℚ
  file_type : TextFileType
  speakers : List String
  utterances : List String
  transcription_tiers : List (String × List Interval)
deriving DecidableEq, Repr

/-- Modelled from the spec: `construct_output_path`
(alignment.multiprocessing, not under src/) builds the output path for a
file beneath the given output directory from its name, relative path and
output format (§4.4 side effects, §6 output files). -/
def construct_output_path (name relative_path output_directory : String)
    (output_format : TextFileType) : String :=
  let ext := match output_format with
    | TextFileType.lab => ".lab"
    | TextFileType.textgrid => ".TextGrid"
    | TextFileType.json => ".json"
  (if relative_path = "" then output_directory
   else output_directory ++ "/" ++ relative_path) ++ "/" ++ name ++ ext

/-- First-match tier lookup (`data[speaker]`, line 221; Python dict access). -/
def lookupTier : List (String × List Interval) → String → Option (List Interval)
  | [], _ => none
  | e :: rest, s => if e.1 = s then some e.2 else lookupTier rest s

/-- The single-label branch of `export_files` (lines 210-213):
`for intervals in data.values(): with mfa_open(output_path, "w") as f:
f.write(intervals[0].label)`.  Each iteration opens the output path for
writing, which truncates the file, and then evaluates `intervals[0]`: on a
zero-interval tier the truncation has already left an empty file when the
`IndexError` aborts the loop.  Returns the ordered (path, content) writes
and the error, if any, that stopped the iteration. -/
def exportLabWrites (p : String) :
    List (String × List Interval) → List (String × String) × Option MfaError
  | [] => ([], none)
  | t :: rest =>
    match t.2 with
    | [] => ([(p, "")], some (MfaError.indexError "list index out of range"))
    | iv :: _ =>
      let r := exportLabWrites p rest
      ((p, iv.label) :: r.1, r.2)

/-- The tier-collection loop of the multi-tier branch (lines 219-226):
`for speaker in file.speakers: intervals = data[speaker]; ... addTier`.
A speaker absent from the transcription data raises a `KeyError`. -/
def buildTiers (data : List (String × List Interval)) :
    List String → Except MfaError (List IntervalTier)
  | [] => Except.ok []
  | s :: rest =>
    match lookupTier data s with
    | none => Except.error (MfaError.keyError s)
    | some ivs => (buildTiers data rest).map fun ts => ⟨s, ivs⟩ :: ts

/-- Modelled from the spec: gap filling performed by praatio's
`tg.save(..., includeBlankSpaces=True, ...)` (line 227; praatio is an
external library): gaps before the first interval, between consecutive
intervals, and after the last are filled with empty-label intervals so the
tier covers the declared range (§4.4 multi-tier format). -/
def fillGaps (cur maxT : ℚ) : List Interval → List Interval
  | [] => if cur < maxT then [⟨cur, maxT, ""⟩] else []
  | iv :: rest =>
    if cur < iv.start then
      ⟨cur, iv.start, ""⟩ :: iv :: fillGaps iv.stop maxT rest
    else
      iv :: fillGaps iv.stop maxT rest

/-- The saved form of one tier: its intervals with gaps filled over the
container's declared time range. -/
def saveTier (minT maxT : ℚ) (t : IntervalTier) : IntervalTier :=
  ⟨t.name, fillGaps minT maxT t.entries⟩

/-- The per-file body of `export_files` (lines 197-227): compute the output
path (note: line 206 passes `self.output_directory`, not the local
`output_directory` variable), then either run the single-label write loop or
build and save a TextGrid container with `minTimestamp = 0`,
`maxTimestamp = duration`, one tier per associated speaker, saved with blank
spaces filled.  Returns the (path, content) writes and the error, if any. -/
def exportFileWrites (st : SpeakerClassifier) (f : FileData) :
    List (String × FileContent) × Option MfaError :=
  let output_path :=
    construct_output_path f.name f.relative_path st.output_directory f.file_type
  match f.file_type with
  | TextFileType.lab =>
    let r := exportLabWrites output_path f.transcription_tiers
    (r.1.map fun w => (w.1, FileContent.text w.2), r.2)
  | fmt =>
    match buildTiers f.transcription_tiers f.speakers with
    | Except.error e => ([], some e)
    | Except.ok tiers =>
      ([(output_path,
         FileContent.textgridFile fmt 0 f.duration
           (tiers.map (saveTier 0 f.duration)))], none)

/-- The file loop of `export_files`: process files in order, stopping at the
first error (a raised exception aborts the loop); writes made before the
error are kept. -/
def exportAllWrites (st : SpeakerClassifier) :
    List FileData → List (String × FileContent) × Option MfaError
  | [] => ([], none)
  | f :: rest =>
    let r := exportFileWrites st f
    match r.2 with
    | some e => (r.1, some e)
    | none =>
      let r2 := exportAllWrites st rest
      (r.1 ++ r2.1, r2.2)

/-- Apply a list of (path, content) writes to a path→content map in order;
a later write to the same path overwrites an earlier one (`"w"` mode). -/
def applyWrites {α : Type} (m : String → Option α) :
    List (String × α) → String → Option α
  | [] => m
  | w :: ws => applyWrites (fun q => if q = w.1 then some w.2 else m q) ws

/-- The content left at a path by a list of writes (the last write to that
path), if any. -/
def lastContent {α : Type} (k : String) : List (String × α) → Option α
  | [] => none
  | w :: ws =>
    match lastContent k ws with
    | some c => some c
    | none => if k = w.1 then some w.2 else none

/-- `SpeakerClassifier.export_files` (lines 177-227): if overwrite is
disabled and the requested output directory exists, rebind the local
`output_directory` variable to `working_directory/transcriptions`
(lines 186-187); create that directory (line 188); then write every file's
annotation output.  The per-file output paths are built from
`self.output_directory` (line 206), not from the local variable.
`files` is the result of the session query.  Returns the filesystem after
the run and the error, if any, that aborted it. -/
def export_files (st : SpeakerClassifier) (fs : FS) (output_directory : String)
    (files : List FileData) : FS × Option MfaError :=
  let od :=
    if !st.overwrite && fs.existsPath output_directory then
      st.working_directory ++ "/transcriptions"
    else
      output_directory
  let ws := exportAllWrites st files
  ({ dirs := od :: fs.dirs, files := applyWrites fs.files ws.1 }, ws.2)

/-! ### Setup -/

/-- The externally visible steps taken by `setup` (lines 125-153), in order:
the previous-run check, log messages, log-directory creation, and the three
corpus/model/ivector actions. -/
inductive SetupAction where
  | check_previous_run
  | log_info (msg : String)
  | make_log_directory
  | load_corpus
  | export_ivector_model
  | extract_ivectors
deriving DecidableEq, Repr

/-- The completion-marker path checked by `setup` (line 136). -/
def done_path (st : SpeakerClassifier) : String :=
  st.working_directory ++ "/done"

/-- `SpeakerClassifier.setup` (lines 125-153): run the previous-run check
(modelled from the spec: `check_previous_run` comes from a mixin outside
src/ and the spec describes no state change for it, so it is embedded as
logging-only and state-preserving); if the `done` marker exists, log and
return, touching nothing else; otherwise create the log directory, load the
corpus, export the ivector extractor model and extract ivectors (the
external collaborator effects are modelled as completion flags on the
state).  Returns the action trace, the new classifier state and the new
filesystem. -/
def setup (st : SpeakerClassifier) (fs : FS) :
    List SetupAction × SpeakerClassifier × FS :=
  if fs.existsPath (done_path st) then
    ([SetupAction.check_previous_run,
      SetupAction.log_info "Classification already done, skipping initialization."],
     st, fs)
  else
    ([SetupAction.check_previous_run, SetupAction.make_log_directory,
      SetupAction.load_corpus, SetupAction.export_ivector_model,
      SetupAction.extract_ivectors],
     { st with corpus_loaded := true, model_exported := true,
               ivectors_extracted := true },
     { fs with dirs := (st.working_directory ++ "/log") :: fs.dirs })

/-! ### Derived predicates and sample data -/

/-- The well-formedness of a tier's interval list relative to a position
`cur` and an upper bound `maxT`: intervals are ordered, non-overlapping,
start no earlier than `cur` and end no later than `maxT` (the TierBuilder
output invariant of §4.3). -/
def sortedWithinB (cur maxT : ℚ) : List Interval → Bool
  | [] => decide (cur ≤ maxT)
  | iv :: rest =>
    decide (cur ≤ iv.start) && decide (iv.start ≤ iv.stop) &&
      sortedWithinB iv.stop maxT rest

/-- Total gap-free coverage of `[cur, maxT]`: each interval starts exactly
where the previous one stopped, and the last one stops at `maxT`. -/
def chainCovers (cur maxT : ℚ) : List Interval → Prop
  | [] => cur = maxT
  | iv :: rest => iv.start = cur ∧ iv.start ≤ iv.stop ∧ chainCovers iv.stop maxT rest

/-- First interval label of a tier, defaulting to the empty string
(only used under a nonemptiness hypothesis). -/
def firstLabelD : String × List Interval → String
  | (_, []) => ""
  | (_, iv :: _) => iv.label

/-- Every component token of every shard is accepted by `float()`. -/
def allComponentsValid (shards : List (List String)) : Bool :=
  (shardEntries shards).all fun e => e.2.all pyFloatValid

instance instDecEqExcept {ε α : Type} [DecidableEq ε] [DecidableEq α] :
    DecidableEq (Except ε α) := fun x y =>
  match x, y with
  | Except.ok a, Except.ok b =>
    if h : a = b then isTrue (by rw [h])
    else isFalse (fun hh => h (Except.ok.inj hh))
  | Except.ok _, Except.error _ => isFalse (fun hh => Except.noConfusion hh)
  | Except.error _, Except.ok _ => isFalse (fun hh => Except.noConfusion hh)
  | Except.error e, Except.error e2 =>
    if h : e = e2 then isTrue (by rw [h])
    else isFalse (fun hh => h (Except.error.inj hh))

/-- A canonical classifier configuration used for concrete evaluations:
overwrite disabled, clustering mode, empty stores, with the worker's
`output_directory` attribute distinct from the requested export directory. -/
def baseState : SpeakerClassifier :=
  { ivector_extractor_path := "ivector_extractor.zip"
    working_directory := "/work"
    output_directory := "/mfa/speaker_classification"
    overwrite := false
    classifier := none
    speaker_labels := []
    ivectors := []
    expected_num_speakers := 0
    cluster := true
    corpus_loaded := false
    model_exported := false
    ivectors_extracted := false }

/-- An empty filesystem. -/
def emptyFS : FS := ⟨[], fun _ => none⟩

/-- A single-label file record with one one-interval tier. -/
def labFileOneTier : FileData :=
  { name := "rec"
    relative_path := ""
    duration := 5
    file_type := TextFileType.lab
    speakers := ["spk"]
    utterances := ["u1"]
    transcription_tiers := [("spk", [⟨0, 5, "hello"⟩])] }

/-- A single-label file record whose only transcription tier has zero
intervals. -/
def labFileEmptyTier : FileData :=
  { name := "rec"
    relative_path := ""
    duration := 5
    file_type := TextFileType.lab
    speakers := ["spk"]
    utterances := []
    transcription_tiers := [("spk", [])] }

/-- The multi-tier scenario of §8: three utterances at (0,2), (2,5), (6,9)
in a 9-second recording, assigned to speakers A, A and B. -/
def tgFileScenario : FileData :=
  { name := "rec"
    relative_path := ""
    duration := 9
    file_type := TextFileType.textgrid
    speakers := ["A", "B"]
    utterances := ["u1", "u2", "u3"]
    transcription_tiers :=
      [("A", [⟨0, 2, "t1"⟩, ⟨2, 5, "t2"⟩]), ("B", [⟨6, 9, "t3"⟩])] }

/-- A filesystem holding only the completion marker of `baseState`'s
working directory. -/
def doneFS : FS :=
  ⟨[], fun p => if p = "/work/done" then some (FileContent.text "") else none⟩

/-! ### Helper lemmas about write application -/

theorem applyWrites_apply {α : Type} (ws : List (String × α)) :
    ∀ (m : String → Option α) (k : String),
      applyWrites m ws k =
        match lastContent k ws with
        | some c => some c
        | none => m k := by
  induction ws with
  | nil => intro m k; rfl
  | cons w ws ih =>
    intro m k
    simp only [applyWrites, lastContent]
    rw [ih]
    cases lastContent k ws with
    | some c => rfl
    | none => by_cases h : k = w.1 <;> simp [h]

theorem applyWrites_idem {α : Type} (ws : List (String × α))
    (m : String → Option α) (k : String) :
    applyWrites (applyWrites m ws) ws k = applyWrites m ws k := by
  rw [applyWrites_apply, applyWrites_apply]
  cases h : lastContent k ws with
  | some c => rfl
  | none => rfl

theorem lastContent_map_const {α : Type} (p : String) (f : α → String) :
    ∀ (xs : List α) (hne : xs ≠ []),
      lastContent p (xs.map fun x => (p, f x)) = some (f (xs.getLast hne))
  | [], hne => absurd rfl hne
  | [x], _ => by simp [lastContent, List.getLast]
  | x :: y :: ys, _ => by
    have ih := lastContent_map_const p f (y :: ys) (List.cons_ne_nil y ys)
    simp only [List.map_cons] at ih ⊢
    rw [lastContent, ih]
    simp [List.getLast]

/-! ### Helper lemmas about vector parsing -/

theorem parseVector_ok_of_all (comps : List String)
    (h : comps.all pyFloatValid = true) : parseVector comps = Except.ok comps := by
  induction comps with
  | nil => rfl
  | cons c cs ih =>
    simp only [List.all_cons, Bool.and_eq_true] at h
    simp [parseVector, h.1, ih h.2, Except.map]

theorem parseVector_error_mem (comps : List String) (e : MfaError)
    (h : parseVector comps = Except.error e) :
    ∃ c ∈ comps, pyFloatValid c = false ∧
      e = MfaError.valueError ("could not convert string to float: " ++ c) := by
  induction comps with
  | nil => simp [parseVector] at h
  | cons c cs ih =>
    by_cases hc : pyFloatValid c
    · rw [parseVector, if_pos hc] at h
      cases hcs : parseVector cs with
      | ok v => rw [hcs] at h; simp [Except.map] at h
      | error e2 =>
        rw [hcs] at h
        simp only [Except.map] at h
        injection h with h2
        subst h2
        obtain ⟨d, hd, hdv, hde⟩ := ih hcs
        exact ⟨d, List.mem_cons_of_mem _ hd, hdv, hde⟩
    · rw [parseVector, if_neg hc] at h
      cases h
      exact ⟨c, List.mem_cons_self c cs, by simpa using hc, rfl⟩

theorem parseVector_error_of_not_all (comps : List String)
    (h : comps.all pyFloatValid = false) : ∃ e, parseVector comps = Except.error e := by
  induction comps with
  | nil => simp at h
  | cons c cs ih =>
    by_cases hc : pyFloatValid c
    · simp only [List.all_cons, hc, Bool.true_and] at h
      obtain ⟨e, he⟩ := ih h
      exact ⟨e, by simp [parseVector, hc, he, Except.map]⟩
    · exact ⟨_, by rw [parseVector, if_neg hc]⟩

/-! ### Helper lemmas about the ivector map -/

theorem lookupIvec_insertIvec (m : List (String × List String)) (k : String)
    (v : List String) (q : String) :
    lookupIvec (insertIvec m k v) q = if q = k then some v else lookupIvec m q := by
  induction m with
  | nil =>
    by_cases h : q = k
    · simp [insertIvec, lookupIvec, h]
    · have h2 : ¬(k = q) := fun hh => h hh.symm
      simp [insertIvec, lookupIvec, h, h2]
  | cons e rest ih =>
    by_cases he : e.1 = k
    · rw [insertIvec, if_pos he]
      by_cases hq : q = k
      · simp [lookupIvec, hq]
      · have : ¬(k = q) := fun hh => hq hh.symm
        have he2 : ¬(e.1 = q) := by rw [he]; exact this
        simp [lookupIvec, this, hq, he2]
    · rw [insertIvec, if_neg he]
      by_cases hq : e.1 = q
      · have : ¬(q = k) := fun hh => he (hq.trans hh)
        simp [lookupIvec, hq, this]
      · simp [lookupIvec, hq, ih]

theorem loadEntries_ok_of_all (es : List (String × List String)) :
    ∀ m, (es.all fun e => e.2.all pyFloatValid) = true →
      ∃ r, loadEntries m es = Except.ok r := by
  induction es with
  | nil => intro m _; exact ⟨m, rfl⟩
  | cons en rest ih =>
    intro m h
    simp only [List.all_cons, Bool.and_eq_true] at h
    obtain ⟨r, hr⟩ := ih (insertIvec m en.1 en.2) h.2
    exact ⟨r, by rw [loadEntries, parseVector_ok_of_all en.2 h.1]; exact hr⟩

theorem loadEntries_error_of_not_all (es : List (String × List String)) :
    ∀ m, (es.all fun e => e.2.all pyFloatValid) = false →
      ∃ e, loadEntries m es = Except.error e := by
  induction es with
  | nil => intro m h; simp at h
  | cons en rest ih =>
    intro m h
    cases hen : en.2.all pyFloatValid with
    | false =>
      obtain ⟨e, he⟩ := parseVector_error_of_not_all en.2 hen
      exact ⟨e, by rw [loadEntries, he]⟩
    | true =>
      simp only [List.all_cons, hen, Bool.true_and] at h
      obtain ⟨e, he⟩ := ih (insertIvec m en.1 en.2) h
      exact ⟨e, by rw [loadEntries, parseVector_ok_of_all en.2 hen]; exact he⟩

theorem loadEntries_error_mem (es : List (String × List String)) :
    ∀ m e, loadEntries m es = Except.error e →
      ∃ c, pyFloatValid c = false ∧
        e = MfaError.valueError ("could not convert string to float: " ++ c) ∧
        ∃ en ∈ es, c ∈ en.2 := by
  induction es with
  | nil => intro m e h; simp [loadEntries] at h
  | cons en rest ih =>
    intro m e h
    rw [loadEntries] at h
    cases hp : parseVector en.2 with
    | error e2 =>
      rw [hp] at h
      injection h with h2
      obtain ⟨c, hc, hcv, hce⟩ := parseVector_error_mem en.2 e2 hp
      exact ⟨c, hcv, h2.symm.trans hce, en, List.mem_cons_self en rest, hc⟩
    | ok v =>
      rw [hp] at h
      obtain ⟨c, hcv, hce, en2, hen2, hc⟩ := ih (insertIvec m en.1 v) e h
      exact ⟨c, hcv, hce, en2, List.mem_cons_of_mem _ hen2, hc⟩

theorem loadEntries_lookup_isSome (es : List (String × List String)) :
    ∀ m r, loadEntries m es = Except.ok r → ∀ k,
      ((lookupIvec r k).isSome ↔
        (lookupIvec m k).isSome ∨ k ∈ es.map Prod.fst) := by
  induction es with
  | nil =>
    intro m r h k
    cases h
    simp
  | cons en rest ih =>
    intro m r h k
    rw [loadEntries] at h
    cases hp : parseVector en.2 with
    | error e2 => rw [hp] at h; cases h
    | ok v =>
      rw [hp] at h
      rw [ih _ _ h k, lookupIvec_insertIvec]
      by_cases hk : k = en.1
      · simp [hk]
      · simp [hk, fun hh => hk hh]

theorem loadEntries_lookup_value (es : List (String × List String)) :
    ∀ m r, loadEntries m es = Except.ok r → ∀ k v,
      lookupIvec r k = some v →
      lookupIvec m k = some v ∨
        ∃ comps, (k, comps) ∈ es ∧ parseVector comps = Except.ok v := by
  induction es with
  | nil =>
    intro m r h k v hv
    cases h
    exact Or.inl hv
  | cons en rest ih =>
    intro m r h k v hv
    rw [loadEntries] at h
    cases hp : parseVector en.2 with
    | error e2 => rw [hp] at h; cases h
    | ok w =>
      rw [hp] at h
      rcases ih _ _ h k v hv with hm | ⟨comps, hmem, hcomps⟩
      · rw [lookupIvec_insertIvec] at hm
        by_cases hk : k = en.1
        · rw [if_pos hk] at hm
          cases hm
          refine Or.inr ⟨en.2, ?_, ?_⟩
          · rw [hk]; exact List.mem_cons_self en rest
          · exact hp
        · rw [if_neg hk] at hm
          exact Or.inl hm
      · exact Or.inr ⟨comps, List.mem_cons_of_mem _ hmem, hcomps⟩

/-! ### Helper lemmas about tiers and gap filling -/

theorem fillGaps_chainCovers :
    ∀ (ivs : List Interval) (cur maxT : ℚ), sortedWithinB cur maxT ivs = true →
      chainCovers cur maxT (fillGaps cur maxT ivs)
  | [], cur, maxT, h => by
    simp only [sortedWithinB, decide_eq_true_eq] at h
    rw [fillGaps]
    by_cases hlt : cur < maxT
    · simp only [if_pos hlt]
      exact ⟨rfl, le_of_lt hlt, rfl⟩
    · have : cur = maxT := le_antisymm h (not_lt.mp hlt)
      simp only [if_neg hlt]
      exact this
  | iv :: rest, cur, maxT, h => by
    simp only [sortedWithinB, Bool.and_eq_true, decide_eq_true_eq] at h
    obtain ⟨⟨h1, h2⟩, h3⟩ := h
    have ih := fillGaps_chainCovers rest iv.stop maxT h3
    rw [fillGaps]
    by_cases hlt : cur < iv.start
    · simp only [if_pos hlt]
      exact ⟨rfl, le_of_lt hlt, rfl, h2, ih⟩
    · have heq : iv.start = cur := le_antisymm (not_lt.mp hlt) h1
      simp only [if_neg hlt]
      exact ⟨heq, h2, ih⟩

theorem fillGaps_sublist :
    ∀ (ivs : List Interval) (cur maxT : ℚ),
      List.Sublist ivs (fillGaps cur maxT ivs)
  | [], cur, maxT => by
    rw [fillGaps]
    by_cases hlt : cur < maxT <;> simp [hlt]
  | iv :: rest, cur, maxT => by
    have ih := fillGaps_sublist rest iv.stop maxT
    rw [fillGaps]
    by_cases hlt : cur < iv.start
    · simp only [if_pos hlt]
      exact List.Sublist.cons _ (List.Sublist.cons₂ _ ih)
    · simp only [if_neg hlt]
      exact List.Sublist.cons₂ _ ih

theorem buildTiers_ok (data : List (String × List Interval)) :
    ∀ speakers : List String, (∀ s ∈ speakers, (lookupTier data s).isSome) →
      ∃ ts, buildTiers data speakers = Except.ok ts ∧
        ts.map IntervalTier.name = speakers ∧
        ∀ t ∈ ts, lookupTier data t.name = some t.entries := by
  intro speakers
  induction speakers with
  | nil => exact fun _ => ⟨[], rfl, rfl, by simp⟩
  | cons s rest ih =>
    intro h
    obtain ⟨ivs, hivs⟩ :=
      Option.isSome_iff_exists.mp (h s (List.mem_cons_self s rest))
    obtain ⟨ts, hts, hnames, hmem⟩ :=
      ih (fun x hx => h x (List.mem_cons_of_mem _ hx))
    refine ⟨⟨s, ivs⟩ :: ts, ?_, ?_, ?_⟩
    · rw [buildTiers, hivs, hts]
      rfl
    · simp [hnames]
    · intro t ht
      rcases List.mem_cons.mp ht with rfl | ht2
      · exact hivs
      · exact hmem t ht2

theorem exportLabWrites_all_eq (p : String) :
    ∀ tiers : List (String × List Interval), (∀ t ∈ tiers, t.2 ≠ []) →
      exportLabWrites p tiers = (tiers.map fun t => (p, firstLabelD t), none)
  | [], _ => rfl
  | t :: rest, h => by
    have ih := exportLabWrites_all_eq p rest (fun u hu => h u (List.mem_cons_of_mem _ hu))
    cases hivs : t.2 with
    | nil => exact absurd hivs (h t (List.mem_cons_self t rest))
    | cons iv tl =>
      rw [exportLabWrites, hivs]
      simp only [ih, List.map_cons]
      have : firstLabelD t = iv.label := by
        obtain ⟨n, ivs⟩ := t
        simp only at hivs
        rw [hivs]
        rfl
      rw [this]

/-! ### Claim theorems -/

/-- C1: every call to `cluster_utterances` fails immediately by raising a
not-implemented error whose message states that speaker diarization is not
working in the current version, regardless of the stored ivectors, the
cluster flag, or the expected speaker count; no speaker assignment (no
updated classifier state) is ever produced. -/
theorem cluster_utterances_raises_not_implemented (st : SpeakerClassifier) :
    cluster_utterances st =
      (["Speaker diarization functionality is currently under construction and not working in the current version."],
       Except.error (MfaError.notImplementedError
         "Speaker diarization functionality is currently under construction and not working in the current version.")) ∧
    ∀ st', (cluster_utterances st).2 ≠ Except.ok st' :=
  ⟨rfl, fun _ h => by simp [cluster_utterances] at h⟩

/-- Witness for C1 at a concrete state: the call does not return a
classifier state. -/
theorem cluster_utterances_raises_not_implemented_witness :
    (cluster_utterances baseState).2 ≠ Except.ok baseState :=
  (cluster_utterances_raises_not_implemented baseState).2 baseState

/-- C9 (code behavior at the failing input): constructing the classifier in
classification mode (`cluster = false`) with no reference speaker models
supplied completes without raising anything: `__init__` performs no
validation, so no `ConfigurationError` is produced before (or after)
reading embeddings.  This contradicts the claim, which demands a
`ConfigurationError`; the spec's stated contract is the intent and the stub
code simply lacks the check. -/
theorem init_classification_mode_no_error :
    SpeakerClassifier.init "ivector_extractor.zip" 0 false "/work"
        "/mfa/speaker_classification" false =
      Except.ok { baseState with cluster := false } :=
  rfl

/-- C8: if the completion marker `done` exists in the working directory,
`setup` only runs the previous-run check and logs a skip notice: it does not
load the corpus, export the ivector extractor model, or extract ivectors,
and both the classifier state and the filesystem are returned unchanged. -/
theorem setup_done_marker_skips (st : SpeakerClassifier) (fs : FS)
    (h : fs.existsPath (done_path st) = true) :
    setup st fs =
      ([SetupAction.check_previous_run,
        SetupAction.log_info "Classification already done, skipping initialization."],
       st, fs) := by
  simp [setup, h]

/-- Witness for C8 at a concrete state: the marker file exists, so `setup`
returns the skip trace with the state and filesystem untouched. -/
theorem setup_done_marker_skips_witness :
    setup baseState doneFS =
      ([SetupAction.check_previous_run,
        SetupAction.log_info "Classification already done, skipping initialization."],
       baseState, doneFS) :=
  setup_done_marker_skips baseState doneFS (by decide)

/-- C7: export is idempotent: running `export_files` a second time with the
same classifier state, requested directory and file data, starting from the
filesystem the first run produced, leaves exactly the same file contents at
every path (the second run deterministically overwrites the first run's
output) and reports the same outcome. -/
theorem export_files_idempotent (st : SpeakerClassifier) (fs : FS)
    (output_directory : String) (files : List FileData) :
    (∀ p, (export_files st (export_files st fs output_directory files).1
              output_directory files).1.files p
          = (export_files st fs output_directory files).1.files p) ∧
    (export_files st (export_files st fs output_directory files).1
        output_directory files).2
      = (export_files st fs output_directory files).2 :=
  ⟨fun p => applyWrites_idem (exportAllWrites st files).1 fs.files p, rfl⟩

/-- C10: in single-label export the output file is opened and rewritten once
per tier of the file's transcription data, each write storing only that
tier's first interval label; the writes target one path, one per tier, and
the content left at that path is the first interval label of the last tier
iterated — every other tier's content is discarded. -/
theorem export_lab_last_tier_wins (p : String)
    (tiers : List (String × List Interval)) (hne : tiers ≠ [])
    (hful : ∀ t ∈ tiers, t.2 ≠ []) :
    (exportLabWrites p tiers).2 = none ∧
    (exportLabWrites p tiers).1 = tiers.map (fun t => (p, firstLabelD t)) ∧
    lastContent p (exportLabWrites p tiers).1
      = some (firstLabelD (tiers.getLast hne)) := by
  have he := exportLabWrites_all_eq p tiers hful
  refine ⟨by rw [he], by rw [he], ?_⟩
  rw [he]
  exact lastContent_map_const p firstLabelD tiers hne

/-- Witness for C10 at two concrete nonempty tiers: the surviving content is
the first interval label of the last tier. -/
theorem export_lab_last_tier_wins_witness :
    lastContent "/out/rec.lab"
        (exportLabWrites "/out/rec.lab"
          [("A", [⟨0, 1, "first"⟩]), ("B", [⟨1, 2, "second"⟩])]).1
      = some "second" := by
  have h := export_lab_last_tier_wins "/out/rec.lab"
      [("A", [⟨0, 1, "first"⟩]), ("B", [⟨1, 2, "second"⟩])]
      (by decide) (by decide)
  exact h.2.2.trans (by decide)

/-- C3 counterexample: exporting a single-label file whose only
transcription tier has zero intervals does fail: the run aborts with an
`IndexError` (the claim asserts it does not fail).  The open-for-write
truncation does leave an empty file at the output path, but the export
raises. -/
theorem export_lab_empty_tier_fails_cex :
    (export_files baseState emptyFS "/out" [labFileEmptyTier]).2
        = some (MfaError.indexError "list index out of range") ∧
    (export_files baseState emptyFS "/out" [labFileEmptyTier]).1.files
        "/mfa/speaker_classification/rec.lab" = some (FileContent.text "") := by
  constructor
  · rfl
  · decide

/-- C3 amended: for a single-label file whose transcription data contains a
tier with zero intervals, export fails with an `IndexError` when that tier
is reached; the open-for-write truncation leaves the output file empty (the
last write at the path is the empty string), so an empty file exists but
the call does not succeed. -/
theorem export_lab_empty_tier_truncates_and_fails (p : String)
    (tiers : List (String × List Interval)) (h : ∃ t ∈ tiers, t.2 = []) :
    (exportLabWrites p tiers).2
        = some (MfaError.indexError "list index out of range") ∧
    lastContent p (exportLabWrites p tiers).1 = some "" := by
  induction tiers with
  | nil => simp at h
  | cons t rest ih =>
    obtain ⟨u, hu, hue⟩ := h
    cases hivs : t.2 with
    | nil =>
      rw [exportLabWrites, hivs]
      exact ⟨rfl, by simp [lastContent]⟩
    | cons iv tl =>
      rcases List.mem_cons.mp hu with rfl | hmem
      · rw [hivs] at hue
        exact absurd hue (List.cons_ne_nil iv tl)
      · have hrec := ih ⟨u, hmem, hue⟩
        rw [exportLabWrites, hivs]
        refine ⟨hrec.1, ?_⟩
        simp only [lastContent, hrec.2]

/-- Witness for C3's amended claim at a concrete one-tier input: the export
loop reports the `IndexError`. -/
theorem export_lab_empty_tier_truncates_and_fails_witness :
    (exportLabWrites "/out/rec.lab" [("spk", ([] : List Interval))]).2
        = some (MfaError.indexError "list index out of range") ∧
    lastContent "/out/rec.lab"
        (exportLabWrites "/out/rec.lab" [("spk", ([] : List Interval))]).1
      = some "" :=
  export_lab_empty_tier_truncates_and_fails "/out/rec.lab" [("spk", [])]
    ⟨("spk", []), by simp, rfl⟩

/-- C2 (code behavior at the failing input): with overwrite disabled and the
requested output directory `/out` already existing, `export_files` raises no
error and creates the redirect directory `working_directory/transcriptions`
— but the exported annotation file is written beneath the classifier's
`output_directory` attribute (line 206 passes `self.output_directory` to
`construct_output_path`), not beneath `working_directory/transcriptions`,
which receives no file.  This contradicts the claim's "every exported
annotation file is written beneath the run's working directory"; the
redirect computed at line 187 is the evident intent, making the write path
a slip. -/
theorem export_files_redirect_not_used_for_writes :
    (export_files baseState { emptyFS with dirs := ["/out"] } "/out"
        [labFileOneTier]).2 = none ∧
    (export_files baseState { emptyFS with dirs := ["/out"] } "/out"
        [labFileOneTier]).1.dirs = ["/work/transcriptions", "/out"] ∧
    (export_files baseState { emptyFS with dirs := ["/out"] } "/out"
        [labFileOneTier]).1.files "/mfa/speaker_classification/rec.lab"
      = some (FileContent.text "hello") ∧
    (export_files baseState { emptyFS with dirs := ["/out"] } "/out"
        [labFileOneTier]).1.files "/work/transcriptions/rec.lab" = none := by
  refine ⟨rfl, ?_, ?_, ?_⟩ <;> decide

/-- C4 counterexample: an input whose second line carries a vector of
length 1 while the first-seen vector has length 2 is loaded successfully —
no `ParseError` (nor any other error) is raised, contradicting the claim
that a vector-length mismatch aborts the run. -/
theorem load_ivectors_length_mismatch_accepted_cex :
    load_ivectors baseState [["utt1 1.0 2.0", "utt2 3.0"]]
      = Except.ok { baseState with
          ivectors := [("utt1", ["1.0", "2.0"]), ("utt2", ["3.0"])] } := by
  decide

/-- C4 amended: `load_ivectors` succeeds exactly when every component of
every line is accepted by `float()` — vector lengths are never compared, so
mismatched lengths load without error — and when it fails, the error is the
`float()` conversion `ValueError`, whose message names the offending
component (not the utterance identifier). -/
theorem load_ivectors_error_characterization (st : SpeakerClassifier)
    (shards : List (List String)) :
    ((∃ st', load_ivectors st shards = Except.ok st')
        ↔ allComponentsValid shards = true) ∧
    (∀ e, load_ivectors st shards = Except.error e →
      ∃ c, pyFloatValid c = false ∧
        e = MfaError.valueError ("could not convert string to float: " ++ c) ∧
        ∃ en ∈ shardEntries shards, c ∈ en.2) := by
  constructor
  · constructor
    · rintro ⟨st', h⟩
      by_contra hall
      have hf : allComponentsValid shards = false := by
        cases hv : allComponentsValid shards
        · rfl
        · exact absurd hv hall
      obtain ⟨e, he⟩ := loadEntries_error_of_not_all (shardEntries shards) [] hf
      rw [load_ivectors, he] at h
      simp [Except.map] at h
    · intro hall
      obtain ⟨r, hr⟩ := loadEntries_ok_of_all (shardEntries shards) [] hall
      exact ⟨{ st with ivectors := r }, by rw [load_ivectors, hr]; rfl⟩
  · intro e h
    rw [load_ivectors] at h
    cases hl : loadEntries [] (shardEntries shards) with
    | ok r => rw [hl] at h; simp [Except.map] at h
    | error e2 =>
      rw [hl] at h
      simp only [Except.map] at h
      injection h with h2
      obtain ⟨c, hcv, hce, hmem⟩ :=
        loadEntries_error_mem (shardEntries shards) [] e2 hl
      exact ⟨c, hcv, h2.symm.trans hce, hmem⟩

/-- Witness for C4's amended claim at a concrete malformed component: the
error names the component `abc` and is a conversion `ValueError`. -/
theorem load_ivectors_error_characterization_witness :
    ∃ c, pyFloatValid c = false ∧
      MfaError.valueError "could not convert string to float: abc"
        = MfaError.valueError ("could not convert string to float: " ++ c) ∧
      ∃ en ∈ shardEntries [["utt1 1.0 abc"]], c ∈ en.2 :=
  (load_ivectors_error_characterization baseState [["utt1 1.0 abc"]]).2
    (MfaError.valueError "could not convert string to float: abc") (by decide)

/-- C5: a successful `load_ivectors` yields a mapping whose keys are exactly
the utterance identifiers appearing in the input files, each mapped to its
parsed component vector, and the result is independent of any prior content
of the store: any two classifier states given the same shards produce the
same mapping (the store is rebuilt from scratch). -/
theorem load_ivectors_keys_and_values (st st' : SpeakerClassifier)
    (shards : List (List String))
    (h : load_ivectors st shards = Except.ok st') :
    (∀ k, (lookupIvec st'.ivectors k).isSome
        ↔ k ∈ (shardEntries shards).map Prod.fst) ∧
    (∀ k v, lookupIvec st'.ivectors k = some v →
      ∃ comps, (k, comps) ∈ shardEntries shards ∧
        parseVector comps = Except.ok v) ∧
    (∀ st₂ st₂', load_ivectors st₂ shards = Except.ok st₂' →
      st₂'.ivectors = st'.ivectors) := by
  rw [load_ivectors] at h
  cases hl : loadEntries [] (shardEntries shards) with
  | error e => rw [hl] at h; simp [Except.map] at h
  | ok m =>
    rw [hl] at h
    simp only [Except.map] at h
    injection h with h2
    have hiv : st'.ivectors = m := by rw [← h2]
    refine ⟨?_, ?_, ?_⟩
    · intro k
      rw [hiv]
      have hk := loadEntries_lookup_isSome (shardEntries shards) [] m hl k
      simpa [lookupIvec] using hk
    · intro k v hv
      rw [hiv] at hv
      rcases loadEntries_lookup_value (shardEntries shards) [] m hl k v hv with
        h0 | hgood
      · simp [lookupIvec] at h0
      · exact hgood
    · intro st₂ st₂' h₂
      rw [load_ivectors, hl] at h₂
      simp only [Except.map] at h₂
      injection h₂ with h₂2
      rw [hiv, ← h₂2]

/-- Witness for C5 at one concrete shard: the key `utt1` is present exactly
because it appears in the input. -/
theorem load_ivectors_keys_and_values_witness :
    (lookupIvec ({ baseState with
          ivectors := [("utt1", ["1.0", "2.0"])] } : SpeakerClassifier).ivectors
        "utt1").isSome
      ↔ "utt1" ∈ (shardEntries [["utt1 1.0 2.0"]]).map Prod.fst :=
  (load_ivectors_keys_and_values baseState
    { baseState with ivectors := [("utt1", ["1.0", "2.0"])] }
    [["utt1 1.0 2.0"]] (by decide)).1 "utt1"

/-- C6: exporting a file in multi-tier format writes an annotation container
declaring the time range [0, duration], holding exactly one tier per speaker
associated with the file (in order, with distinct names), each named by the
speaker's identity, holding that speaker's ordered intervals as a
subsequence, and — after the blank-space filling done at save time — each
tier covers [0, duration] with no gaps. -/
theorem export_textgrid_container_spec (st : SpeakerClassifier) (fs : FS)
    (od : String) (f : FileData)
    (hfmt : f.file_type = TextFileType.textgrid)
    (hnodup : f.speakers.Nodup)
    (htiers : ∀ s ∈ f.speakers, ∃ ivs,
        lookupTier f.transcription_tiers s = some ivs ∧
        sortedWithinB 0 f.duration ivs = true) :
    (export_files st fs od [f]).2 = none ∧
    ∃ tg : List IntervalTier,
      (export_files st fs od [f]).1.files
          (construct_output_path f.name f.relative_path st.output_directory
            f.file_type)
        = some (FileContent.textgridFile TextFileType.textgrid 0 f.duration tg) ∧
      tg.map IntervalTier.name = f.speakers ∧
      (tg.map IntervalTier.name).Nodup ∧
      ∀ t ∈ tg, chainCovers 0 f.duration t.entries ∧
        ∃ orig, lookupTier f.transcription_tiers t.name = some orig ∧
          List.Sublist orig t.entries := by
  have hlook : ∀ s ∈ f.speakers, (lookupTier f.transcription_tiers s).isSome := by
    intro s hs
    obtain ⟨ivs, hl, _⟩ := htiers s hs
    rw [hl]
    rfl
  obtain ⟨ts, hts, hnames, hmem⟩ :=
    buildTiers_ok f.transcription_tiers f.speakers hlook
  have hw : exportFileWrites st f =
      ([(construct_output_path f.name f.relative_path st.output_directory
           f.file_type,
         FileContent.textgridFile TextFileType.textgrid 0 f.duration
           (ts.map (saveTier 0 f.duration)))], none) := by
    rw [exportFileWrites, hfmt, hts]
  have hall : exportAllWrites st [f] =
      ([(construct_output_path f.name f.relative_path st.output_directory
           f.file_type,
         FileContent.textgridFile TextFileType.textgrid 0 f.duration
           (ts.map (saveTier 0 f.duration)))], none) := by
    rw [exportAllWrites, hw]
    simp [exportAllWrites]
  refine ⟨?_, ts.map (saveTier 0 f.duration), ?_, ?_, ?_, ?_⟩
  · show (exportAllWrites st [f]).2 = none
    rw [hall]
  · show applyWrites fs.files (exportAllWrites st [f]).1 _ = _
    rw [hall]
    simp [applyWrites]
  · rw [List.map_map]
    have : IntervalTier.name ∘ saveTier 0 f.duration = IntervalTier.name := by
      funext t
      rfl
    rw [this, hnames]
  · rw [List.map_map]
    have : IntervalTier.name ∘ saveTier 0 f.duration = IntervalTier.name := by
      funext t
      rfl
    rw [this, hnames]
    exact hnodup
  · intro t ht
    obtain ⟨t0, ht0, rfl⟩ := List.mem_map.mp ht
    have hname0 : (saveTier 0 f.duration t0).name = t0.name := rfl
    have hmem0 := hmem t0 ht0
    have hspk : t0.name ∈ f.speakers := by
      rw [← hnames]
      exact List.mem_map.mpr ⟨t0, ht0, rfl⟩
    obtain ⟨ivs, hl, hsort⟩ := htiers t0.name hspk
    have hentries : t0.entries = ivs := by
      have := hmem0.symm.trans hl
      exact Option.some.inj this
    constructor
    · show chainCovers 0 f.duration (fillGaps 0 f.duration t0.entries)
      exact fillGaps_chainCovers t0.entries 0 f.duration (by rw [hentries]; exact hsort)
    · refine ⟨t0.entries, ?_, ?_⟩
      · rw [hname0]
        exact hmem0
      · exact fillGaps_sublist t0.entries 0 f.duration

/-- Witness for C6 at the §8 scenario (speakers A and B, 9-second
recording): the export completes without error. -/
theorem export_textgrid_container_spec_witness :
    (export_files baseState emptyFS "/out" [tgFileScenario]).2 = none :=
  (export_textgrid_container_spec baseState emptyFS "/out" tgFileScenario rfl
    (by decide)
    (fun s hs => by
      fin_cases hs
      · exact ⟨_, rfl, by decide⟩
      · exact ⟨_, rfl, by decide⟩)).1

end MFA
